import Mathlib

/-!
# Verification of the todo-mvc-bench wait engine and benchmark pipeline

A shallow embedding of the core of the repository:

* from the library crate, the polling wait engine (the functions
  named wait_for, wait_while and wait_until_next_for);
* from the binary crate, the benchmark data model (BenchmarkStep,
  Benchmark and its total method), the pipeline steps create_todos and
  delete_todos, and the run orchestration (execute_bench together with
  the per-run part of bench_runner_logic).

The cooperative scheduler is modelled by explicit poll indices: the
i-th poll of a wait primitive reads the polled closure at index i, and
a clock function gives the elapsed seconds observed when poll i is
processed.  The creation and deletion loops of the pipeline carry a
fuel argument bounding the number of iterations; a run that exhausts
its fuel returns none.  Times are rationals standing for the f64
seconds of the source.  The DOM seen by a pipeline step is an oracle
giving the element count returned by its k-th selector query; query
exceptions (the JavaScript error paths) are not modelled.
-/

namespace TodoMvcBench

/-- The structure named Found in the library crate: the value produced by a
successful poll together with the elapsed seconds measured when it was
produced. -/
structure Found (T : Type) where
  found : T
  elapsed_seconds : ℚ
deriving DecidableEq

/-- Shallow embedding of wait_for from the library crate.  The argument
el gives the elapsed seconds observed when the i-th poll is processed,
and f gives what the polled closure returns on its i-th invocation.
Each tick of the source moves both oneshot senders into the immediate
callback.  When the closure yields a value, the callback sends it on
the done channel and the done arm of the biased select returns the
Ready outcome with the elapsed time.  When the closure yields nothing,
the callback sends on the tick channel and then, returning, drops the
unused done sender, so the done receiver resolves with a cancellation
error; the biased select polls the done receiver first, and that arm
maps the receive error to Err(elapsed).  The wait therefore ends at
its first poll either way: the tick arm with its elapsed-versus-timeout
comparison, and with it the re-entry of the loop, is unreachable, and
the timeout argument is never consulted.  The result also carries the
poll index after the consumed poll, so that callers issuing further
queries can be chained on the same oracle. -/
def wait_for {T : Type} (timeout_seconds : ℚ) (el : Nat → ℚ) (f : Nat → Option T)
    (i : Nat) : Except ℚ (Found T) × Nat :=
  match f i with
  | some t => (.ok ⟨t, el i⟩, i + 1)
  | none => (.error (el i), i + 1)

/-- Shallow embedding of wait_while from the library crate: it delegates
to wait_for, polling a closure that yields a value exactly when the
boolean condition is false. -/
def wait_while (timeout_seconds : ℚ) (el : Nat → ℚ) (f : Nat → Bool)
    (i : Nat) : Except ℚ (Found Unit) × Nat :=
  wait_for timeout_seconds el (fun j => if f j then none else some ()) i

/-- Shallow embedding of wait_until_next_for from the library crate.  The
select race is decided by resolution times: t_first is the moment the
next item of the stream resolves — with some t for an item, or none
when the stream terminated — and t_fire is the moment the timeout
sleep resolves, yielding fire_millis elapsed milliseconds which the
source divides by 1000.  The sleep is started with
timeout_seconds * 1000, so t_fire approximates timeout_seconds. -/
def wait_until_next_for {T : Type} (timeout_seconds : ℚ) (first : Option T)
    (t_first t_fire fire_millis : ℚ) : Except ℚ (Found T) :=
  if t_first < t_fire then
    match first with
    | some t => .ok ⟨t, t_first⟩
    | none => .error t_first
  else .error (fire_millis / 1000)

/-- The structure named BenchmarkStep in the binary crate.  The field
named end in the source is called end_ here, because end is a Lean
keyword. -/
structure BenchmarkStep where
  name : String
  start : ℚ
  end_ : Option ℚ
  cycles : Option Nat
deriving DecidableEq

/-- The structure named Benchmark in the binary crate. -/
structure Benchmark where
  name : String
  steps : List BenchmarkStep
  failed_message : Option String
  language : Option String
deriving DecidableEq

/-- The associated function new of Benchmark. -/
def Benchmark.new : Benchmark :=
  { name := "unnamed", steps := [], failed_message := none, language := none }

/-- The body of the fold in the total method of Benchmark: the question
mark operator on the accumulator and on the step's end field is
Option.bind. -/
def totalStepF (may_sum : Option ℚ) (step : BenchmarkStep) : Option ℚ :=
  may_sum.bind fun sum => step.end_.bind fun e => some (sum + (e - step.start))

/-- The total method of Benchmark: fold totalStepF over the steps,
starting from some 0. -/
def Benchmark.total (b : Benchmark) : Option ℚ :=
  b.steps.foldl totalStepF (some 0)

/-! ## Lemmas about the wait engine -/

/-- C2.  The code does not satisfy the claimed timeout bound: a poll
that yields nothing ends the wait at once through the cancelled done
channel, so wait_for returns the timed-out outcome carrying the elapsed
time of its single tick, which can lie far below the timeout.
Evaluated here at a ten-second timeout against a closure that never
yields, with the first tick processed at three milliseconds: the
outcome is Err(3/1000) although 3/1000 is well below 10, while the
claim requires an elapsed of at least the timeout. -/
theorem wait_for_never_ready_times_out_early :
    wait_for (T := Unit) 10 (fun _ => 3 / 1000) (fun _ => none) 0 =
      (.error (3 / 1000), 1) ∧ (3 : ℚ) / 1000 < 10 :=
  ⟨rfl, by norm_num⟩

/-- C7.  wait_while is wait_for applied to the transformed closure that
yields a value exactly when the boolean condition is false: it waits
while the condition holds and succeeds when it becomes false. -/
theorem wait_while_is_wait_for (timeout : ℚ) (el : Nat → ℚ) (f : Nat → Bool)
    (i : Nat) :
    wait_while timeout el f i =
      wait_for timeout el (fun j => if f j then none else some ()) i := rfl

/-- C8.  The closure is polled before any timeout comparison: if it
yields a value on the very first poll, the done arm of the select
carries the value and wait_for returns the Ready outcome whatever the
timeout, including zero and negative timeouts. -/
theorem wait_for_first_poll_ready {T : Type} (timeout : ℚ) (el : Nat → ℚ)
    (f : Nat → Option T) (i : Nat) (v : T) (hv : f i = some v) :
    wait_for timeout el f i = (.ok ⟨v, el i⟩, i + 1) := by
  simp [wait_for, hv]

/-- Witness for C8 with a negative timeout. -/
theorem wait_for_first_poll_ready_witness :
    wait_for (-1) (fun _ => (0 : ℚ)) (fun _ => some ()) 0 = (.ok ⟨(), 0⟩, 1) :=
  wait_for_first_poll_ready (-1) (fun _ => (0 : ℚ)) (fun _ => some ()) 0 () rfl

/-- C10.  If the event stream terminates before the timeout sleep fires,
and the timeout has not yet elapsed, wait_until_next_for returns the
timed-out outcome carrying the elapsed time at stream termination. -/
theorem wait_until_next_for_stream_end {T : Type}
    (timeout t_first t_fire fire_millis : ℚ) (first : Option T)
    (hnone : first = none) (hrace : t_first < t_fire) (hearly : t_first < timeout) :
    wait_until_next_for timeout first t_first t_fire fire_millis = .error t_first := by
  subst hnone
  simp [wait_until_next_for, hrace]

/-- Witness for C10: the stream ends at one second, well before the
five-second timeout. -/
theorem wait_until_next_for_stream_end_witness :
    wait_until_next_for (T := Unit) 5 none 1 5 5000 = .error 1 :=
  wait_until_next_for_stream_end 5 1 5 5000 none rfl (by norm_num) (by norm_num)

/-! ## Lemmas about the total method of Benchmark -/

lemma total_fold_none (l : List BenchmarkStep) :
    l.foldl totalStepF none = none := by
  induction l with
  | nil => rfl
  | cons s t ih =>
    rw [List.foldl_cons]
    exact ih

lemma total_fold_some (l : List BenchmarkStep) (init : ℚ)
    (h : ∀ s ∈ l, s.end_ ≠ none) :
    l.foldl totalStepF (some init) =
      some (init + (l.map (fun s => s.end_.getD 0 - s.start)).sum) := by
  induction l generalizing init with
  | nil => simp
  | cons s t ih =>
    obtain ⟨e, he⟩ := Option.ne_none_iff_exists'.mp (h s (List.mem_cons_self s t))
    rw [List.foldl_cons]
    have hstep : totalStepF (some init) s = some (init + (e - s.start)) := by
      simp [totalStepF, he]
    rw [hstep, ih (init + (e - s.start)) (fun x hx => h x (List.mem_cons_of_mem s hx))]
    simp [he, add_assoc]

lemma total_fold_exists_none (l : List BenchmarkStep) (init : ℚ)
    (h : ∃ s ∈ l, s.end_ = none) :
    l.foldl totalStepF (some init) = none := by
  induction l generalizing init with
  | nil => simp at h
  | cons s t ih =>
    rw [List.foldl_cons]
    rcases h with ⟨x, hx, hend⟩
    rcases List.mem_cons.mp hx with rfl | hx'
    · have hstep : totalStepF (some init) x = none := by simp [totalStepF, hend]
      rw [hstep]
      exact total_fold_none t
    · cases he : s.end_ with
      | none =>
        have hstep : totalStepF (some init) s = none := by simp [totalStepF, he]
        rw [hstep]
        exact total_fold_none t
      | some e =>
        have hstep : totalStepF (some init) s = some (init + (e - s.start)) := by
          simp [totalStepF, he]
        rw [hstep]
        exact ih _ ⟨x, hx', hend⟩

/-- C9.  The total method of Benchmark returns the sum of end minus
start over all steps when every step has its end set — in particular
some 0 for an empty step list — and returns none as soon as any step's
end is unset. -/
theorem Benchmark.total_characterization (b : Benchmark) :
    ((∀ s ∈ b.steps, s.end_ ≠ none) →
      b.total = some ((b.steps.map (fun s => s.end_.getD 0 - s.start)).sum)) ∧
    ((∃ s ∈ b.steps, s.end_ = none) → b.total = none) := by
  constructor
  · intro h
    have := total_fold_some b.steps 0 h
    simpa [Benchmark.total] using this
  · intro h
    simpa [Benchmark.total] using total_fold_exists_none b.steps 0 h

/-- A benchmark whose two steps both carry an end timestamp. -/
def totalExampleAllEnds : Benchmark :=
  { name := "a"
    steps := [⟨"s1", 1, some 3, none⟩, ⟨"s2", 4, some 9, none⟩]
    failed_message := none
    language := none }

/-- A benchmark whose second step has no end timestamp. -/
def totalExampleMissingEnd : Benchmark :=
  { name := "b"
    steps := [⟨"s1", 1, some 3, none⟩, ⟨"s2", 4, none, none⟩]
    failed_message := none
    language := none }

/-- Witness for C9 on both sides of the characterization. -/
theorem Benchmark.total_characterization_witness :
    totalExampleAllEnds.total =
      some ((totalExampleAllEnds.steps.map (fun s => s.end_.getD 0 - s.start)).sum) ∧
    totalExampleMissingEnd.total = none :=
  ⟨(Benchmark.total_characterization totalExampleAllEnds).1 (by decide),
   (Benchmark.total_characterization totalExampleMissingEnd).2
     ⟨⟨"s2", 4, none, none⟩, by simp [totalExampleMissingEnd], rfl⟩⟩

/-! ## The CreateItems step -/

/-- Equality of Except values is decidable when both components have
decidable equality; used to evaluate concrete pipeline runs. -/
instance {ε α : Type} [DecidableEq ε] [DecidableEq α] : DecidableEq (Except ε α) := fun x y =>
  match x, y with
  | .error a, .error b =>
    if h : a = b then isTrue (by rw [h]) else isFalse (fun hh => by cases hh; exact h rfl)
  | .error _, .ok _ => isFalse (fun hh => by cases hh)
  | .ok _, .error _ => isFalse (fun hh => by cases hh)
  | .ok a, .ok b =>
    if h : a = b then isTrue (by rw [h]) else isFalse (fun hh => by cases hh; exact h rfl)

/-- The enum named CreateTodoMethod in the binary crate: the kind of
synthetic event sequence dispatched to signal that input was entered. -/
inductive CreateTodoMethod where
  | change
  | inputAndKeypress
  | inputAndKeyup
  | inputAndKeydown
  | submit
deriving DecidableEq

/-- Instrumentation of a create_todos run: lens records the item count
observed at the head of each creation iteration, in order, including
the observation of an aborting iteration; values records, per
dispatched creation trigger, the method together with the text that
had been set on the input. -/
structure CreateTrace where
  lens : List Nat
  values : List (CreateTodoMethod × String)
deriving DecidableEq

/-- The while loop of create_todos.  Each iteration: read the item
count at the loop head (one query); fail when it exceeds 100; set the
input value and dispatch the creation trigger; then wait_for (nominal
budget one second) an observation equal to the head count plus one —
which, by the single-poll behaviour of wait_for, succeeds or fails on
the one confirmation query it issues.  The returned trace records the
head observations and the dispatches, and the final component is the
query index after the last consumed query. -/
def create_loop (clock : Nat → ℚ) (obs : Nat → Nat) (method : CreateTodoMethod) :
    Nat → Nat → Nat → Option (Except String Unit × CreateTrace × Nat)
  | 0, _, _ => none
  | fuel + 1, created, q =>
    if created < 100 then
      let len := obs q
      if 100 < len then some (.error "created too many todos", ⟨[len], []⟩, q + 1)
      else
        let value := s!"Something to do {len}"
        match wait_for 1 (fun j => clock j - clock (q + 1))
            (fun j => if obs j = len + 1 then some () else none) (q + 1) with
        | (.error e, q') =>
          some (.error s!"timed out waiting for todo creation for {e} seconds",
            ⟨[len], [(method, value)]⟩, q')
        | (.ok _, q') =>
          match create_loop clock obs method fuel (created + 1) q' with
          | none => none
          | some (res, tr, qf) => some (res, ⟨len :: tr.lens, (method, value) :: tr.values⟩, qf)
    else some (.ok (), ⟨[], []⟩, q)

/-- Shallow embedding of create_todos from the binary crate: first the
precondition query — a positive count of completable controls fails
the step immediately — then the creation loop; on success a timed
BenchmarkStep is produced whose start is the clock after the
precondition query and whose end is the clock at completion. -/
def create_todos (clock : Nat → ℚ) (obs : Nat → Nat) (method : CreateTodoMethod)
    (fuel : Nat) : Option (Except String BenchmarkStep × CreateTrace × Nat) :=
  let len := obs 0
  if 0 < len then some (.error "pre-existing todos", ⟨[], []⟩, 1)
  else
    match create_loop clock obs method fuel 0 1 with
    | none => none
    | some (.error e, tr, q') => some (.error e, tr, q')
    | some (.ok _, tr, q') =>
      some (.ok { name := "create todos", start := clock 1,
                  end_ := some (clock q'), cycles := none }, tr, q')

/-- The item counts a create_todos run acts on, in order: for each
creation iteration the loop-head observation followed by the confirmed
observation, which by the shape of the wait predicate is the head
count plus one. -/
def createObsSeq : List Nat → List Nat
  | [] => []
  | l :: rest => l :: (l + 1) :: createObsSeq rest

/-- C3.  When completable controls are already present — the
precondition query returns a positive count — create_todos fails
immediately with the error message about pre-existing todos, with an
empty trace: no input value was set, no creation trigger was
dispatched, and no timed BenchmarkStep was recorded. -/
theorem create_todos_precondition_failed (clock : Nat → ℚ) (obs : Nat → Nat)
    (method : CreateTodoMethod) (fuel : Nat) (h : 0 < obs 0) :
    create_todos clock obs method fuel =
      some (.error "pre-existing todos", ⟨[], []⟩, 1) := by
  simp [create_todos, h]

/-- Witness for C3: a document that already shows five completable
controls. -/
theorem create_todos_precondition_failed_witness :
    create_todos (fun _ => 0) (fun _ => 5) .change 3 =
      some (.error "pre-existing todos", ⟨[], []⟩, 1) :=
  create_todos_precondition_failed (fun _ => 0) (fun _ => 5) .change 3 (by norm_num)

lemma create_loop_ok_length (clock : Nat → ℚ) (obs : Nat → Nat)
    (method : CreateTodoMethod) :
    ∀ fuel created q u tr qf,
      create_loop clock obs method fuel created q = some (.ok u, tr, qf) →
      tr.lens.length = 100 - created := by
  intro fuel
  induction fuel with
  | zero => intro created q u tr qf h; simp [create_loop] at h
  | succ fuel ih =>
    intro created q u tr qf h
    simp only [create_loop] at h
    split at h
    · split at h
      · simp at h
      · split at h
        · simp at h
        · split at h
          · simp at h
          · rename_i res tr' qf' hrec
            simp only [Option.some.injEq, Prod.mk.injEq] at h
            obtain ⟨hres, htr, hqf⟩ := h
            subst hres
            have := ih (created + 1) _ u tr' qf' hrec
            rw [← htr]
            simp only [List.length_cons]
            omega
    · simp only [Option.some.injEq, Prod.mk.injEq] at h
      obtain ⟨-, htr, -⟩ := h
      rw [← htr]
      simp
      omega

lemma range'_chain_succ (n : Nat) : ∀ s : Nat,
    (List.range' s n).Chain' (fun a b => b = a + 1) := by
  induction n with
  | zero => intro s; simp
  | succ n ih =>
    intro s
    rw [List.range'_succ, List.chain'_cons']
    refine ⟨?_, ih (s + 1)⟩
    intro y hy
    cases n with
    | zero => simp at hy
    | succ n =>
      rw [List.range'_succ] at hy
      simp at hy
      omega

lemma chain_succ_head_eq_range' : ∀ (l : List Nat) (a : Nat),
    l.Chain' (fun x y => y = x + 1) → l.head? = some a → l = List.range' a l.length := by
  intro l
  induction l with
  | nil => intro a _ h; simp at h
  | cons x t ih =>
    intro a hc hh
    simp only [List.head?_cons, Option.some.injEq] at hh
    subst hh
    cases t with
    | nil => simp [List.range']
    | cons y t' =>
      rw [List.chain'_cons] at hc
      obtain ⟨hxy, hct⟩ := hc
      subst hxy
      have ht := ih (x + 1) hct (by simp)
      rw [List.length_cons, List.range'_succ]
      rw [← ht]

lemma createObsSeq_range'_chain (n : Nat) : ∀ s : Nat,
    (createObsSeq (List.range' s n)).Chain' (· ≤ ·) ∧
    (∀ y ∈ (createObsSeq (List.range' s n)).head?, s ≤ y) := by
  induction n with
  | zero => intro s; simp [createObsSeq]
  | succ n ih =>
    intro s
    rw [List.range'_succ]
    simp only [createObsSeq]
    constructor
    · rw [List.chain'_cons', List.chain'_cons']
      refine ⟨?_, ?_, (ih (s + 1)).1⟩
      · intro y hy
        simp at hy
        omega
      · intro y hy
        exact le_trans (by omega) ((ih (s + 1)).2 y hy)
    · intro y hy
      simp at hy
      omega

lemma createObsSeq_mem_le (m : Nat) : ∀ l : List Nat, (∀ x ∈ l, x + 1 ≤ m) →
    ∀ y ∈ createObsSeq l, y ≤ m := by
  intro l
  induction l with
  | nil => simp [createObsSeq]
  | cons x t ih =>
    intro hl
    simp only [createObsSeq, List.mem_cons]
    rintro y (rfl | rfl | hy)
    · have := hl y (by simp)
      omega
    · have := hl x (by simp)
      omega
    · exact ih (fun z hz => hl z (by simp [hz])) y hy

lemma create_todos_ok_elim (clock : Nat → ℚ) (obs : Nat → Nat) (method : CreateTodoMethod)
    (fuel : Nat) (step : BenchmarkStep) (tr : CreateTrace) (qf : Nat)
    (h : create_todos clock obs method fuel = some (.ok step, tr, qf)) :
    create_loop clock obs method fuel 0 1 = some (.ok (), tr, qf) := by
  simp only [create_todos] at h
  split at h
  · simp at h
  · split at h
    · simp at h
    · simp at h
    · rename_i u tr' q' heq
      simp only [Option.some.injEq, Prod.mk.injEq] at h
      obtain ⟨-, htr, hqf⟩ := h
      rw [heq, htr, hqf]

/-- C4 (amended).  For every successful create_todos run against a
consistent target — one for which each loop-head observation equals the
previously confirmed count, stated as: the recorded head observations
start at 0 and increase by exactly one — the head observations are
exactly 0..99, the sequence of counts the step acts on (each head
observation followed by its confirmed observation) is non-decreasing
and never exceeds 100, and the count at completion — the last confirmed
observation — is exactly 100.  Without the consistency hypothesis the
conclusion fails; see the counterexample. -/
theorem create_todos_success_consistent_counts (clock : Nat → ℚ) (obs : Nat → Nat)
    (method : CreateTodoMethod) (fuel : Nat) (step : BenchmarkStep) (tr : CreateTrace)
    (qf : Nat)
    (h : create_todos clock obs method fuel = some (.ok step, tr, qf))
    (hhead : tr.lens.head? = some 0)
    (hchain : tr.lens.Chain' (fun a b => b = a + 1)) :
    tr.lens = List.range 100 ∧
    (createObsSeq tr.lens).Chain' (· ≤ ·) ∧
    (∀ x ∈ createObsSeq tr.lens, x ≤ 100) ∧
    (createObsSeq tr.lens).getLast? = some 100 := by
  have hloop := create_todos_ok_elim clock obs method fuel step tr qf h
  have hlen : tr.lens.length = 100 := by
    simpa using create_loop_ok_length clock obs method fuel 0 1 () tr qf hloop
  have hr : tr.lens = List.range 100 := by
    have hr' := chain_succ_head_eq_range' tr.lens 0 hchain hhead
    rw [hlen] at hr'
    rw [hr', List.range_eq_range']
  refine ⟨hr, ?_, ?_, ?_⟩
  · rw [hr, List.range_eq_range']
    exact (createObsSeq_range'_chain 100 0).1
  · rw [hr]
    refine createObsSeq_mem_le 100 (List.range 100) ?_
    intro x hx
    rw [List.mem_range] at hx
    omega
  · rw [hr]
    decide

/-- A target in perfect lockstep with the step: the precondition query
returns 0 and each creation iteration observes the previously confirmed
count at its head, then the incremented count. -/
def consistentObs : Nat → Nat :=
  fun k => ([0] ++ (List.range 100).flatMap (fun i => [i, i + 1])).getD k 0

/-- The trace produced by create_todos against consistentObs. -/
def consistentTrace : CreateTrace :=
  ⟨List.range 100, (List.range 100).map (fun l => (.change, s!"Something to do {l}"))⟩

set_option maxRecDepth 100000 in
/-- Witness for C4 on the lockstep target. -/
theorem create_todos_success_consistent_counts_witness :
    consistentTrace.lens = List.range 100 ∧
    (createObsSeq consistentTrace.lens).Chain' (· ≤ ·) ∧
    (∀ x ∈ createObsSeq consistentTrace.lens, x ≤ 100) ∧
    (createObsSeq consistentTrace.lens).getLast? = some 100 :=
  create_todos_success_consistent_counts (fun _ => 0) consistentObs .change 150
    ⟨"create todos", 0, some 0, none⟩ consistentTrace 201 (by decide) (by decide)
    (by rw [(by decide : consistentTrace.lens = List.range 100), List.range_eq_range']
        exact range'_chain_succ 100 0)

/-- A target that behaves consistently for ninety-nine creations and
then jumps: the hundredth iteration observes 100 at its head — which
the guard admits, as it only rejects counts above 100 — and confirms
101. -/
def overshootObs : Nat → Nat :=
  fun k => ([0] ++ (List.range 99).flatMap (fun i => [i, i + 1]) ++ [100, 101]).getD k 0

set_option maxRecDepth 100000 in
/-- C4 counterexample: a create_todos run that returns success although
the count at completion is 101, not 100 — the final query of the run,
at index 200, observed 101 and the step accepted it, since the last
loop head read 100 and the wait succeeds at head count plus one.  The
claim that a successful CreateItems step always ends with exactly the
requested count of 100 items is therefore false of the code. -/
theorem create_todos_success_not_exactly_100 :
    create_todos (fun _ => 0) overshootObs .change 150 =
      some (.ok ⟨"create todos", 0, some 0, none⟩,
        ⟨List.range 99 ++ [100],
         (List.range 99 ++ [100]).map (fun l => (.change, s!"Something to do {l}"))⟩,
        201) ∧
    overshootObs 200 = 101 :=
  ⟨by decide, by decide⟩

lemma create_loop_overshoot (clock : Nat → ℚ) (obs : Nat → Nat)
    (method : CreateTodoMethod) :
    ∀ fuel created q res tr qf,
      create_loop clock obs method fuel created q = some (res, tr, qf) →
      (∃ l ∈ tr.lens, 100 < l) →
      res = Except.error "created too many todos" := by
  intro fuel
  induction fuel with
  | zero => intro created q res tr qf h _; simp [create_loop] at h
  | succ fuel ih =>
    intro created q res tr qf h hbad
    simp only [create_loop] at h
    by_cases hc : created < 100
    · rw [if_pos hc] at h
      by_cases hlen : 100 < obs q
      · rw [if_pos hlen] at h
        simp only [Option.some.injEq, Prod.mk.injEq] at h
        obtain ⟨hres, -, -⟩ := h
        exact hres.symm
      · rw [if_neg hlen] at h
        split at h
        · simp only [Option.some.injEq, Prod.mk.injEq] at h
          obtain ⟨hres, htr, -⟩ := h
          rw [← htr] at hbad
          simp at hbad
          exact absurd hbad hlen
        · split at h
          · simp at h
          · rename_i res' tr' qf' hrec
            simp only [Option.some.injEq, Prod.mk.injEq] at h
            obtain ⟨hres, htr, -⟩ := h
            rw [← htr] at hbad
            simp only [List.mem_cons] at hbad
            obtain ⟨l, hl, hlt⟩ := hbad
            rcases hl with rfl | hl'
            · exact absurd hlt hlen
            · rw [← hres]
              exact ih (created + 1) _ res' tr' qf' hrec ⟨l, hl', hlt⟩
    · rw [if_neg hc] at h
      simp only [Option.some.injEq, Prod.mk.injEq] at h
      obtain ⟨-, htr, -⟩ := h
      rw [← htr] at hbad
      simp at hbad

/-- C5 (amended).  If any loop-head observation of a create_todos run
exceeds 100, the step aborts with the error message about creating too
many todos.  The guard inspects only loop-head observations: a count
above 100 read inside the confirmation wait does not abort the step —
see the counterexample — and a pre-existing count above 100 aborts with
the precondition message instead. -/
theorem create_todos_loop_head_overshoot_aborts (clock : Nat → ℚ) (obs : Nat → Nat)
    (method : CreateTodoMethod) (fuel : Nat) (res : Except String BenchmarkStep)
    (tr : CreateTrace) (qf : Nat)
    (h : create_todos clock obs method fuel = some (res, tr, qf))
    (hbad : ∃ l ∈ tr.lens, 100 < l) :
    res = Except.error "created too many todos" := by
  simp only [create_todos] at h
  split at h
  · simp only [Option.some.injEq, Prod.mk.injEq] at h
    obtain ⟨-, htr, -⟩ := h
    rw [← htr] at hbad
    simp at hbad
  · split at h
    · simp at h
    · rename_i e tr' q' heq
      simp only [Option.some.injEq, Prod.mk.injEq] at h
      obtain ⟨hres, htr, -⟩ := h
      rw [← htr] at hbad
      have hloop := create_loop_overshoot clock obs method fuel 0 1 (.error e) tr' q' heq hbad
      have he : e = "created too many todos" := by injection hloop
      rw [← hres, he]
    · rename_i u tr' q' heq
      simp only [Option.some.injEq, Prod.mk.injEq] at h
      obtain ⟨hres, htr, -⟩ := h
      rw [← htr] at hbad
      have hloop := create_loop_overshoot clock obs method fuel 0 1 (.ok u) tr' q' heq hbad
      simp at hloop

/-- Witness for C5: the first loop head reads 150, beyond 100, and the
run aborts with the expected message. -/
theorem create_todos_loop_head_overshoot_aborts_witness :
    (∃ l ∈ ([150] : List Nat), 100 < l) ∧
    (Except.error "created too many todos" : Except String BenchmarkStep) =
      Except.error "created too many todos" :=
  ⟨⟨150, by decide, by decide⟩,
   create_todos_loop_head_overshoot_aborts (fun _ => 0) (fun k => [0, 150].getD k 0)
     .change 5 (.error "created too many todos") ⟨[150], []⟩ 2 (by decide)
     ⟨150, by decide, by decide⟩⟩

/-- A target whose count reads 150 on the confirmation query of the
first creation iteration. -/
def conf150Obs : Nat → Nat :=
  fun k => [0, 0, 150].getD k 0

set_option maxRecDepth 100000 in
/-- C5 counterexample: during the first creation iteration the
confirmation query reads 150 — far beyond the requested 100 — at query
index 2, yet the step does not abort with the error about too many
todos: the overshoot guard inspects only loop-head observations, and
the unexpected confirmation count instead fails the wait, so the step
aborts with the timed-out message.  The claim that any observed count
above 100 aborts the step with the too-many error is therefore false of
the code. -/
theorem create_todos_confirmation_overshoot_no_too_many :
    create_todos (fun _ => 0) conf150Obs .change 5 =
      some (.error "timed out waiting for todo creation for 0 seconds",
        ⟨[0], [(.change, "Something to do 0")]⟩, 3) ∧
    100 < conf150Obs 2 :=
  ⟨by with_unfolding_all decide, by decide⟩

/-! ## The DeleteItems step -/

/-- Instrumentation of a delete_todos run: cycles records, per completed
deletion cycle, the loop-head observation paired with the count the
cycle confirmed; clicks counts the destroy controls clicked; finalCheck
records the count observed by the final confirmation query, when that
query was reached. -/
structure DeleteTrace where
  cycles : List (Nat × Nat)
  clicks : Nat
  finalCheck : Option Nat
deriving DecidableEq

/-- The destroy loop of delete_todos, with d the deletions_remaining
counter.  Each cycle: read the count of destroy controls (one query);
fail with the unexpected-number message when it differs from d; click
the first control — the source fails when none exists, which can only
happen at d = 0; decrement d; then wait_while (nominal budget five
seconds) the count differs from the decremented d — which, by the
single-poll behaviour of wait_for, succeeds or fails on the one
confirmation query it issues; break when d reaches zero. -/
def delete_loop (clock : Nat → ℚ) (obs : Nat → Nat) :
    Nat → Nat → Nat → Option (Except String Unit × List (Nat × Nat) × Nat × Nat)
  | 0, _, _ => none
  | fuel + 1, d, q =>
    let len := obs q
    if len ≠ d then some (.error s!"unexpected number of todos: {d}", [], 0, q + 1)
    else if d = 0 then some (.error "no destroy button to click", [], 0, q + 1)
    else
      match wait_while 5 (fun j => clock j - clock (q + 1))
          (fun j => obs j ≠ d - 1) (q + 1) with
      | (.error e, q') =>
        some (.error s!"couldn't confirm todo deleted after {e} seconds", [], 1, q')
      | (.ok _, q') =>
        if d - 1 = 0 then some (.ok (), [(d, d - 1)], 1, q')
        else
          match delete_loop clock obs fuel (d - 1) q' with
          | none => none
          | some (res, cyc, clicks, qf) => some (res, (d, d - 1) :: cyc, clicks + 1, qf)

/-- Shallow embedding of delete_todos from the binary crate.  The
initial assertion that 100 destroy toggles exist polls a closure that
always yields a value — the count test sits inside the yielded Option
and is discarded — so, queries succeeding, it passes on its single poll
whatever the count; its error branch is reachable only through query
exceptions, which are not modelled.  Then the destroy loop runs from
deletions_remaining = 100, and a final confirmation query fails the
step when any destroy control remains.  On success a timed
BenchmarkStep is produced. -/
def delete_todos (clock : Nat → ℚ) (obs : Nat → Nat) (fuel : Nat) :
    Option (Except String BenchmarkStep × DeleteTrace × Nat) :=
  match wait_for 1 (fun j => clock j - clock 0)
      (fun j => some (if obs j = 100 then some () else none)) 0 with
  | (.error _, q0) =>
    some (.error "could not confirm destroy toggles exist", ⟨[], 0, none⟩, q0)
  | (.ok _, q0) =>
    match delete_loop clock obs fuel 100 q0 with
    | none => none
    | some (.error e, cyc, clicks, q') => some (.error e, ⟨cyc, clicks, none⟩, q')
    | some (.ok _, cyc, clicks, q') =>
      let n := obs q'
      if 0 < n then
        some (.error s!"there are {n} remaining todos", ⟨cyc, clicks, some n⟩, q' + 1)
      else
        some (.ok { name := "delete todos", start := clock q0,
                    end_ := some (clock (q' + 1)), cycles := none },
          ⟨cyc, clicks, some n⟩, q' + 1)

lemma delete_loop_ok_cycles (clock : Nat → ℚ) (obs : Nat → Nat) :
    ∀ fuel d q u cyc clicks qf,
      delete_loop clock obs fuel d q = some (.ok u, cyc, clicks, qf) →
      cyc = (List.range d).reverse.map (fun i => (i + 1, i)) := by
  intro fuel
  induction fuel with
  | zero => intro d q u cyc clicks qf h; simp [delete_loop] at h
  | succ fuel ih =>
    intro d q u cyc clicks qf h
    simp only [delete_loop] at h
    by_cases hne : obs q ≠ d
    · rw [if_pos hne] at h
      simp at h
    · rw [if_neg hne] at h
      by_cases hd0 : d = 0
      · rw [if_pos hd0] at h
        simp at h
      · rw [if_neg hd0] at h
        obtain ⟨d', rfl⟩ : ∃ d', d = d' + 1 := ⟨d - 1, by omega⟩
        split at h
        · simp at h
        · by_cases hd1 : d' + 1 - 1 = 0
          · rw [if_pos hd1] at h
            simp only [Option.some.injEq, Prod.mk.injEq] at h
            obtain ⟨-, hcyc, -⟩ := h
            obtain rfl : d' = 0 := by omega
            rw [← hcyc]
            decide
          · rw [if_neg hd1] at h
            split at h
            · simp at h
            · rename_i res' cyc' clicks' qf' hrec
              simp only [Option.some.injEq, Prod.mk.injEq] at h
              obtain ⟨hres, hcyc, -⟩ := h
              rw [hres] at hrec
              have hc' := ih (d' + 1 - 1) _ u cyc' clicks' qf' hrec
              rw [← hcyc, hc']
              have hdd : d' + 1 - 1 = d' := by omega
              rw [hdd, List.range_succ]
              simp

/-- C6.  For every delete_todos run: on success the final confirmation
query observed zero remaining destroy controls and the completed
deletion cycles are exactly one hundred, counting down in lockstep —
cycle (d, d - 1) for d from 100 down to 1, so each confirmed cycle
decreased the remaining count by exactly one; and whenever the final
confirmation query observes a positive count n, the step fails with the
count-mismatch message about n remaining todos. -/
theorem delete_todos_drains_to_zero (clock : Nat → ℚ) (obs : Nat → Nat) (fuel : Nat)
    (res : Except String BenchmarkStep) (tr : DeleteTrace) (qf : Nat)
    (h : delete_todos clock obs fuel = some (res, tr, qf)) :
    (∀ step, res = .ok step →
      tr.finalCheck = some 0 ∧
      tr.cycles = (List.range 100).reverse.map (fun i => (i + 1, i)) ∧
      (∀ p ∈ tr.cycles, p.2 + 1 = p.1) ∧
      tr.cycles.length = 100) ∧
    (∀ n, tr.finalCheck = some n → 0 < n →
      res = .error s!"there are {n} remaining todos") := by
  simp only [delete_todos] at h
  split at h
  · simp only [Option.some.injEq, Prod.mk.injEq] at h
    obtain ⟨hres, htr, -⟩ := h
    constructor
    · intro step hstep
      rw [← hres] at hstep
      simp at hstep
    · intro n hn _
      rw [← htr] at hn
      simp at hn
  · rename_i w q0 hw
    split at h
    · simp at h
    · rename_i e cyc clicks q' hloop
      simp only [Option.some.injEq, Prod.mk.injEq] at h
      obtain ⟨hres, htr, -⟩ := h
      constructor
      · intro step hstep
        rw [← hres] at hstep
        simp at hstep
      · intro n hn _
        rw [← htr] at hn
        simp at hn
    · rename_i w' cyc clicks q' hloop
      by_cases hpos : 0 < obs q'
      · rw [if_pos hpos] at h
        simp only [Option.some.injEq, Prod.mk.injEq] at h
        obtain ⟨hres, htr, -⟩ := h
        constructor
        · intro step hstep
          rw [← hres] at hstep
          simp at hstep
        · intro n hn _
          rw [← htr] at hn
          simp only [Option.some.injEq] at hn
          rw [← hres, hn]
      · rw [if_neg hpos] at h
        simp only [Option.some.injEq, Prod.mk.injEq] at h
        obtain ⟨hres, htr, -⟩ := h
        have hzero : obs q' = 0 := by omega
        have hcyc := delete_loop_ok_cycles clock obs fuel 100 q0 w' cyc clicks q' hloop
        have hcycles : tr.cycles = (List.range 100).reverse.map (fun i => (i + 1, i)) := by
          rw [← htr]
          simpa using hcyc
        have hfinal : tr.finalCheck = some 0 := by
          rw [← htr]
          simp [hzero]
        constructor
        · intro step hstep
          refine ⟨hfinal, hcycles, ?_, ?_⟩
          · rw [hcycles]
            intro p hp
            simp only [List.mem_map] at hp
            obtain ⟨i, -, rfl⟩ := hp
            rfl
          · rw [hcycles]
            simp
        · intro n hn hnpos
          rw [hfinal] at hn
          simp only [Option.some.injEq] at hn
          omega

/-- A target that deletes in lockstep: 100 controls at the initial
assertion, each cycle observes its expected count then the decremented
count, and the final confirmation sees zero. -/
def deleteObs : Nat → Nat :=
  fun k => (([100] ++ (List.range 100).flatMap (fun i => [100 - i, 99 - i]) ++ [0]).getD k 0)

/-- The trace produced by delete_todos against deleteObs. -/
def deleteTraceEx : DeleteTrace :=
  ⟨(List.range 100).reverse.map (fun i => (i + 1, i)), 100, some 0⟩

set_option maxRecDepth 100000 in
/-- Witness for C6 on the lockstep deleting target. -/
theorem delete_todos_drains_to_zero_witness :
    deleteTraceEx.finalCheck = some 0 ∧
    deleteTraceEx.cycles = (List.range 100).reverse.map (fun i => (i + 1, i)) ∧
    (∀ p ∈ deleteTraceEx.cycles, p.2 + 1 = p.1) ∧
    deleteTraceEx.cycles.length = 100 :=
  (delete_todos_drains_to_zero (fun _ => 0) deleteObs 150
    (.ok ⟨"delete todos", 0, some 0, none⟩) deleteTraceEx 202 (by decide)).1
    ⟨"delete todos", 0, some 0, none⟩ rfl

/-! ## The pipeline and the per-run orchestration -/

/-- The results the six pipeline sub-steps of execute_bench produce
against a given environment.  Each sub-step is an asynchronous call
whose outcome is determined by the target; execute_bench itself only
sequences them and propagates the first failure, which is the part the
truncation claim is about. -/
structure BenchEnv where
  load : Except String BenchmarkStep
  find_input : Except String BenchmarkStep
  focus : Except String BenchmarkStep
  create : Except String BenchmarkStep
  complete : Except String BenchmarkStep
  delete : Except String BenchmarkStep
deriving DecidableEq

/-- Shallow embedding of execute_bench from the binary crate: push the
load step, the find-input step, the focus step when the framework card
requests waiting for input focus, then the create, complete and delete
steps; the question mark operator on each call makes the first failure
return immediately, discarding the local steps vector. -/
def execute_bench (wait_for_input_focus : Bool) (env : BenchEnv) :
    Except String (List BenchmarkStep) := do
  let s1 ← env.load
  let s2 ← env.find_input
  let focusSteps ← if wait_for_input_focus then do
      let s ← env.focus
      pure [s]
    else pure []
  let s4 ← env.create
  let s5 ← env.complete
  let s6 ← env.delete
  pure ([s1, s2] ++ focusSteps ++ [s4, s5, s6])

/-- The per-run body of bench_runner_logic from the binary crate: build
an empty Benchmark carrying the framework name and language, run
execute_bench, then either extend the empty step list with the returned
steps or record the failure message. -/
def run_bench (name : String) (language : Option String) (wait_for_input_focus : Bool)
    (env : BenchEnv) : Benchmark :=
  let benchmark := { Benchmark.new with name := name, language := language }
  match execute_bench wait_for_input_focus env with
  | .ok steps => { benchmark with steps := benchmark.steps ++ steps }
  | .error err => { benchmark with failed_message := some err }

/-- C1 (amended).  When any pipeline step fails, the resulting Benchmark
contains no steps at all — the steps completed before the failing one
are discarded together with the local steps vector of execute_bench —
and carries the failure message; in particular no step beyond the
failing one is present. -/
theorem run_bench_failure_empty_steps (name : String) (language : Option String)
    (wf : Bool) (env : BenchEnv) (err : String)
    (h : execute_bench wf env = .error err) :
    (run_bench name language wf env).steps = [] ∧
    (run_bench name language wf env).failed_message = some err := by
  simp [run_bench, Benchmark.new, h]

/-- An environment in which the load step completes with a fully
timestamped BenchmarkStep and the find-input step fails. -/
def envFindFails : BenchEnv :=
  { load := .ok ⟨"initial load", 0, some 1, none⟩
    find_input := .error "todo input not found"
    focus := .ok ⟨"await todo focus", 1, some 2, none⟩
    create := .ok ⟨"create todos", 2, some 3, none⟩
    complete := .ok ⟨"complete todos", 3, some 4, none⟩
    delete := .ok ⟨"delete todos", 4, some 5, none⟩ }

/-- Witness for C1 on the environment whose second step fails. -/
theorem run_bench_failure_empty_steps_witness :
    (run_bench "test" none false envFindFails).steps = [] ∧
    (run_bench "test" none false envFindFails).failed_message =
      some "todo input not found" :=
  run_bench_failure_empty_steps "test" none false envFindFails "todo input not found"
    (by decide)

/-- C1 counterexample: the load step completed — the environment returns
a fully timestamped load step — and the second step fails, yet the
resulting Benchmark retains no step at all: the entries completed
before the failing step are discarded, contradicting the claim that
steps one through k minus one are retained when step k fails. -/
theorem run_bench_drops_completed_steps :
    envFindFails.load = .ok ⟨"initial load", 0, some 1, none⟩ ∧
    run_bench "test-framework" none false envFindFails =
      { name := "test-framework", steps := [],
        failed_message := some "todo input not found", language := none } :=
  ⟨by decide, by decide⟩

end TodoMvcBench
